import Mathlib

/-!
Shallow embedding of the GitHub provider of `issues-watcher`
(`src/providers/github.rs`) and proofs about its specification.

Modelling conventions:
* `i32` / `i64` become `Int`; page numbers and counters become `Nat`.
* Timestamps (`DateTime<Utc>`) become `Int` (an abstract instant).
* A Rust panic (out-of-bounds indexing, failed `unwrap`) is modelled as
  `Option.none` of the embedding function.
* Network traffic is abstracted by pure page sources
  (`Nat → List α`, 1-based page number to decoded page); decode or
  transport failures are orthogonal to the pagination logic under study.
* Unbounded `loop` / `while` constructs take a `fuel` argument; running out
  of fuel yields `none` and every theorem about a run assumes the run
  succeeded (`= some _`), exactly the executions the Rust code performs.
-/

namespace IssuesWatcher

/-- Repository reference, `struct Repo { owner, repo }` in the source. -/
structure Repo where
  owner : String
  repo : String
deriving DecidableEq

/-- Project (board) reference, `struct Project { owner, repo, number, id }`. -/
structure Project where
  owner : String
  repo : String
  number : Int
  id : Option Int
deriving DecidableEq

/-- Decoded board entry of the board-list endpoint, `struct GitHubProject`. -/
structure GitHubProject where
  id : Int
  number : Int
deriving DecidableEq

/-- Issue assignee, `struct Assignee { id, login }`. -/
structure Assignee where
  id : Int
  login : String
deriving DecidableEq

/-- Pull-request marker payload, `struct Pull { html_url }`. -/
structure Pull where
  html_url : String
deriving DecidableEq

/-- Issue label, `struct Label { id, name, description }`. -/
structure Label where
  id : Int
  name : String
  description : Option String
deriving DecidableEq

/-- Issue record, `struct Issue` in the source.  `owner` and `repo` are
absent from the API payload (serde `skip_deserializing`) and back-filled
after the fetch. -/
structure Issue where
  number : Int
  title : String
  assignee : Option Assignee
  owner : String
  repo : String
  pull_request : Option Pull
  created_at : Int
  author_association : String
  labels : List Label
deriving DecidableEq

/-- Card placeholder, `struct Card {}` (no fields in the source). -/
structure Card where
deriving DecidableEq

/-- Board column, `struct Column { id, name, cards }`; `cards` is
back-filled after the column list is decoded. -/
structure Column where
  id : Int
  name : String
  cards : List Card
deriving DecidableEq

/-- Issues of one repository, `struct RepoIssues`. -/
structure RepoIssues where
  repo : Repo
  issues : List Issue
deriving DecidableEq

/-- Column state of one project, `struct ProjectIssues`. -/
structure ProjectIssues where
  project : Project
  columns : List Column
deriving DecidableEq

/-- The snapshot, `struct Snapshot { time, repo_issues, project_issues }`. -/
structure Snapshot where
  time : Int
  repo_issues : List RepoIssues
  project_issues : List ProjectIssues
deriving DecidableEq

/-- The client state, `struct GitHub` (the reqwest handle is dropped; it
carries no data).  `time` is set once, in `GitHub::new`, from `Utc::now()`. -/
structure GitHubClient where
  token : String
  repos : List Repo
  projects : List Project
  time : Int
deriving DecidableEq

/-- Splitting a character list at every occurrence of a separator, the
semantics of Rust `str::split` with a one-character pattern (an empty
input yields one empty segment, adjacent separators yield empty
segments). -/
def splitOnChar (sep : Char) : List Char → List (List Char)
  | [] => [[]]
  | c :: rest =>
    if c = sep then [] :: splitOnChar sep rest
    else
      match splitOnChar sep rest with
      | s :: tail => (c :: s) :: tail
      | [] => [[c]]

/-- The segments of a string split on `/`, as strings. -/
def splitSlash (r : String) : List String :=
  (splitOnChar '/' r.toList).map String.mk

/-- Embedding of `impl From<String> for Repo`: split on `/` and index
elements 0 and 1.  Indexing panics when the split yields fewer than two
segments; the panic is modelled as `none`.  No validation of segment
emptiness or of extra segments is performed by the source. -/
def Repo.fromString (r : String) : Option Repo :=
  match splitSlash r with
  | a :: b :: _ => some { owner := a, repo := b }
  | _ => none

/-- Character class of `[\w-]` in the project-URL pattern, over the ASCII
fragment of `\w` (the configuration strings in scope are ASCII). -/
def isWordDash (c : Char) : Bool :=
  c.isAlphanum || c = '_' || c = '-'

/-- Match a literal pattern at the head of the input, returning the rest. -/
def dropLit : List Char → List Char → Option (List Char)
  | [], rest => some rest
  | p :: ps, c :: cs => if p = c then dropLit ps cs else none
  | _ :: _, [] => none

/-- Numeric value of a run of decimal digits. -/
def digitsToNat (ds : List Char) : Nat :=
  ds.foldl (fun n c => n * 10 + (c.toNat - 48)) 0

/-- Try the pattern `https://github.com/([\w-]+)/([\w-]+)/projects/(\d+)`
at one start position.  The character classes are disjoint from the
delimiter `/`, and nothing follows the final `\d+`, so greedy maximal
munch is exactly the regex semantics at a fixed start. -/
def matchProjectAt (cs : List Char) : Option (String × String × Nat) := do
  let r1 ← dropLit "https://github.com/".toList cs
  let (o, r2) := r1.span isWordDash
  if o.isEmpty then none else
  let r3 ← dropLit ['/'] r2
  let (rp, r4) := r3.span isWordDash
  if rp.isEmpty then none else
  let r5 ← dropLit "/projects/".toList r4
  let (ds, _) := r5.span Char.isDigit
  if ds.isEmpty then none else
  some (String.mk o, String.mk rp, digitsToNat ds)

/-- Leftmost unanchored search of the project-URL pattern, as
`Regex::captures` performs it: the first start offset admitting a match
wins. -/
def scanProjectUrl : List Char → Option (String × String × Nat)
  | [] => none
  | c :: cs =>
    match matchProjectAt (c :: cs) with
    | some r => some r
    | none => scanProjectUrl cs

/-- Embedding of `impl From<String> for Project`: on a regex match, build
the reference with `id = None`; the captured number goes through
`parse::<i32>().unwrap()`, which panics (modelled `none`) when the digit
run exceeds `i32`; on no match, return the sentinel empty reference. -/
def Project.fromString (r : String) : Option Project :=
  match scanProjectUrl r.toList with
  | some (o, rp, n) =>
    if n ≤ 2147483647 then
      some { owner := o, repo := rp, number := Int.ofNat n, id := none }
    else
      none
  | none => some { owner := "", repo := "", number := 0, id := none }

/-- Embedding of `GitHub::new`: parse every repo string, parse every
project string, drop projects whose `(owner, repo)` matches a parsed
repo, prefix the token with `"token "`, and stamp `time` with the clock
read at construction (`Utc::now()`). -/
def GitHub.new (token : String) (repos : List String) (projects : List String)
    (now : Int) : Option GitHubClient := do
  let rs ← repos.mapM Repo.fromString
  let ps ← projects.mapM Project.fromString
  pure
    { token := "token " ++ token
      repos := rs
      projects := ps.filter fun p => !(rs.contains { owner := p.owner, repo := p.repo })
      time := now }

/-- The fixed page size `PER_PAGE` of the source. -/
def PER_PAGE : Nat := 100

/-- One step of the shared pagination loop of
`get_opened_issues_by_repo` and `get_cards`:

`while all.len() == page * PER_PAGE { page += 1; all.extend(fetch(page)) }`

`src` is the page source (1-based page number to decoded page), `all` the
accumulator, `page` the number of requests issued so far.  The result is
the accumulated list together with the number of requests, or `none` when
the fuel runs out before the loop exits. -/
def fetchLoop (src : Nat → List α) (pageSize : Nat) :
    Nat → List α → Nat → Option (List α × Nat)
  | 0, _, _ => none
  | fuel + 1, all, page =>
    if all.length = page * pageSize then
      fetchLoop src pageSize fuel (all ++ src (page + 1)) (page + 1)
    else
      some (all, page)

/-- The pagination loop started on an empty accumulator at page 0, as both
Rust loops start it. -/
def fetchAllPages (src : Nat → List α) (pageSize : Nat) (fuel : Nat) :
    Option (List α × Nat) :=
  fetchLoop src pageSize fuel [] 0

/-- Concatenation of the first `n` pages of a source, in fetch order. -/
def joinPages (src : Nat → List α) (n : Nat) : List α :=
  ((List.range n).map fun i => src (i + 1)).flatten

/-- A fake page source returning pages of sizes 100, 100 and 37 and
nothing afterwards. -/
def pages237 : Nat → List Nat := fun n =>
  if n ≤ 2 then List.replicate 100 0 else if n = 3 then List.replicate 37 0 else []

/-- The closure applied to every fetched issue by
`get_opened_issues_by_repo`: back-fill `owner` and `repo` from the
repository reference, leaving every other field as decoded. -/
def backfill (repo : Repo) (i : Issue) : Issue :=
  { i with owner := repo.owner, repo := repo.repo }

/-- Embedding of `GitHub::get_opened_issues_by_repo`: run the pagination
loop over the repository's issue pages, then back-fill `owner`/`repo` on
every accumulated issue.  No filtering is applied. -/
def get_opened_issues_by_repo (src : Nat → List Issue) (repo : Repo)
    (fuel : Nat) : Option RepoIssues :=
  (fetchAllPages src PER_PAGE fuel).map fun r =>
    { repo := repo, issues := r.1.map (backfill repo) }

/-- First board of a decoded board-list page whose `number` equals the
target, yielding its `id` — the inner `for` loop of `get_projects_id`. -/
def findNumber (ps : List GitHubProject) (target : Int) : Option Int :=
  (ps.find? fun p => p.number == target).map GitHubProject.id

/-- The `'outer: loop` of `get_projects_id` for one unresolved project:
request board-list pages (1-based) until a page contains the target
number (success, stop immediately) or a page decodes to fewer than
`PER_PAGE` entries without a match (`"project not found"`). -/
def scanPages (boards : Nat → List GitHubProject) (target : Int) :
    Nat → Nat → Option (Except String Int)
  | 0, _ => none
  | fuel + 1, page =>
    let ps := boards (page + 1)
    match findNumber ps target with
    | some i => some (Except.ok i)
    | none =>
      if ps.length < PER_PAGE then some (Except.error "project not found")
      else scanPages boards target fuel (page + 1)

/-- Lookup in the `number2id` map; the map is modelled as an association
list whose most recent insertion is at the front, matching
`HashMap::insert` overwrite semantics. -/
def lookupA (m : List (Int × Int)) (k : Int) : Option Int :=
  (m.find? fun e => e.1 == k).map Prod.snd

/-- First phase of `get_projects_id`: for every project whose `id` is
unset, scan its owning repository's board list and record
`(number -> id)` in `number2id`; the count of scans performed is
returned alongside.  Projects whose `id` is already set are skipped. -/
def scanPhase (env : String → String → Nat → List GitHubProject) (fuel : Nat) :
    List Project → List (Int × Int) → Nat →
    Option (Except String (List (Int × Int)) × Nat)
  | [], m, cnt => some (Except.ok m, cnt)
  | p :: rest, m, cnt =>
    match p.id with
    | some _ => scanPhase env fuel rest m cnt
    | none =>
      match scanPages (env p.owner p.repo) p.number fuel 0 with
      | none => none
      | some (Except.error e) => some (Except.error e, cnt + 1)
      | some (Except.ok i) => scanPhase env fuel rest ((p.number, i) :: m) (cnt + 1)

/-- Second phase of `get_projects_id`: assign to every still-unresolved
project the id recorded for its number; a missing entry is the terminal
`"project not found"` failure. -/
def assignPhase (m : List (Int × Int)) : List Project → Except String (List Project)
  | [] => Except.ok []
  | p :: rest =>
    match p.id with
    | some _ => (assignPhase m rest).map fun l => p :: l
    | none =>
      match lookupA m p.number with
      | some i => (assignPhase m rest).map fun l => { p with id := some i } :: l
      | none => Except.error "project not found"

/-- Embedding of `GitHub::get_projects_id`: the scan phase over all
projects followed by the assignment phase; the returned `Nat` counts the
board-list pagination scans issued. -/
def get_projects_id (env : String → String → Nat → List GitHubProject)
    (projects : List Project) (fuel : Nat) :
    Option (Except String (List Project) × Nat) :=
  match scanPhase env fuel projects [] 0 with
  | none => none
  | some (Except.error e, cnt) => some (Except.error e, cnt)
  | some (Except.ok m, cnt) => some (assignPhase m projects, cnt)

/-- A concrete board-list source: page 1 holds the single board
`{id := 9, number := 7}` and every later page is empty. -/
def boards9 : Nat → List GitHubProject := fun p =>
  if p = 1 then [{ id := 9, number := 7 }] else []

/-- An unresolved project reference used in concrete resolution runs. -/
def projDup : Project := { owner := "o", repo := "r", number := 7, id := none }

/-- A board-list environment serving `boards9` for every repository. -/
def envDup : String → String → Nat → List GitHubProject := fun _ _ => boards9

/-- Unresolved reference to board number 5 of repository `o1/r1`. -/
def projA : Project := { owner := "o1", repo := "r1", number := 5, id := none }

/-- Unresolved reference to board number 5 of repository `o2/r2`. -/
def projB : Project := { owner := "o2", repo := "r2", number := 5, id := none }

/-- A board-list environment in which `o1/r1` has the board
`{id := 70, number := 5}` and every other repository the board
`{id := 80, number := 5}`. -/
def envLast : String → String → Nat → List GitHubProject := fun o _ p =>
  if o = "o1" then (if p = 1 then [{ id := 70, number := 5 }] else [])
  else (if p = 1 then [{ id := 80, number := 5 }] else [])

/-- The platform, seen as pure sources: issue pages per repository,
column lists per project id, card pages per column id. -/
structure Env where
  issues : String → String → Nat → List Issue
  columns : Int → List Column
  cards : Int → Nat → List Card

/-- The empty platform: no issues, no columns, no cards. -/
def envEmpty : Env :=
  { issues := fun _ _ _ => [], columns := fun _ => [], cards := fun _ _ => [] }

/-- Per-column card attachment of `get_columns`: each column's cards are
fetched by the pagination loop (`get_cards`) and written into the
column; the second component counts card page requests. -/
def attachCards (env : Env) (fuel : Nat) : List Column → Option (List Column × Nat)
  | [] => some ([], 0)
  | c :: rest => do
    let r1 ← fetchAllPages (env.cards c.id) PER_PAGE fuel
    let r2 ← attachCards env fuel rest
    some ({ c with cards := r1.1 } :: r2.1, r1.2 + r2.2)

/-- Embedding of `GitHub::get_columns`: fails with
`"project id is none"` before any request when `project.id` is unset;
otherwise one request retrieves the column list (no pagination loop on
columns) and each column's cards are fetched and attached.  The second
component counts the requests issued. -/
def get_columns (env : Env) (p : Project) (fuel : Nat) :
    Option (Except String (List Column) × Nat) :=
  match p.id with
  | none => some (Except.error "project id is none", 0)
  | some pid =>
    match attachCards env fuel (env.columns pid) with
    | none => none
    | some (cols, r) => some (Except.ok cols, 1 + r)

/-- Embedding of `GitHub::get_project`: the drill-down of one project. -/
def get_project (env : Env) (p : Project) (fuel : Nat) :
    Option (Except String ProjectIssues) :=
  match get_columns env p fuel with
  | none => none
  | some (Except.error e, _) => some (Except.error e)
  | some (Except.ok cols, _) => some (Except.ok { project := p, columns := cols })

/-- Embedding of `GitHub::get_projects_snapshot`: sequential, fail-fast
drill-down of every configured project, in configuration order. -/
def get_projects_snapshot (env : Env) (fuel : Nat) :
    List Project → Option (Except String (List ProjectIssues))
  | [] => some (Except.ok [])
  | p :: rest =>
    match get_project env p fuel with
    | none => none
    | some (Except.error e) => some (Except.error e)
    | some (Except.ok pr) =>
      match get_projects_snapshot env fuel rest with
      | none => none
      | some (Except.error e) => some (Except.error e)
      | some (Except.ok l) => some (Except.ok (pr :: l))

/-- Embedding of `GitHub::get_opened_issues`: sequential fetch of every
configured repository's issues, in configuration order. -/
def get_opened_issues (env : Env) (repos : List Repo) (fuel : Nat) :
    Option (List RepoIssues) :=
  repos.mapM fun r => get_opened_issues_by_repo (env.issues r.owner r.repo) r fuel

/-- Embedding of `GitHub::get_snapshot`.  The snapshot's `time` is the
client's `time` field, written once in `GitHub::new`; the body never
reads the clock, so the result does not depend on the instant
`nowAtCall` at which the invocation happens. -/
def get_snapshot (g : GitHubClient) (env : Env) (fuel : Nat)
    (nowAtCall : Int) : Option (Except String Snapshot) :=
  match get_opened_issues env g.repos fuel with
  | none => none
  | some ris =>
    match get_projects_snapshot env fuel g.projects with
    | none => none
    | some (Except.error e) => some (Except.error e)
    | some (Except.ok pis) =>
      some (Except.ok { time := g.time, repo_issues := ris, project_issues := pis })

theorem joinPages_zero (src : Nat → List α) : joinPages src 0 = [] := rfl

theorem joinPages_succ (src : Nat → List α) (n : Nat) :
    joinPages src (n + 1) = joinPages src n ++ src (n + 1) := by
  simp [joinPages, List.range_succ]

/-- Master invariant of the pagination loop: starting from the
concatenation of the first `page` pages, a successful run returns the
concatenation of the first `reqs` pages, where the loop condition held at
every intermediate page count and fails at `reqs`. -/
theorem fetchLoop_spec (src : Nat → List α) (pageSize : Nat) :
    ∀ fuel page items reqs,
      fetchLoop src pageSize fuel (joinPages src page) page = some (items, reqs) →
      items = joinPages src reqs ∧ page ≤ reqs ∧
        (joinPages src reqs).length ≠ reqs * pageSize ∧
        ∀ q, page ≤ q → q < reqs → (joinPages src q).length = q * pageSize := by
  intro fuel
  induction fuel with
  | zero => intro page items reqs h; simp [fetchLoop] at h
  | succ fuel ih =>
    intro page items reqs h
    rw [fetchLoop] at h
    by_cases hc : (joinPages src page).length = page * pageSize
    · rw [if_pos hc] at h
      rw [← joinPages_succ] at h
      obtain ⟨h1, h2, h3, h4⟩ := ih (page + 1) items reqs h
      refine ⟨h1, by omega, h3, ?_⟩
      intro q hq1 hq2
      rcases Nat.eq_or_lt_of_le hq1 with heq | hlt
      · exact heq ▸ hc
      · exact h4 q hlt hq2
    · rw [if_neg hc] at h
      have hpair := Option.some.inj h
      obtain ⟨hi, hp⟩ : joinPages src page = items ∧ page = reqs :=
        ⟨congrArg Prod.fst hpair, congrArg Prod.snd hpair⟩
      subst hp; subst hi
      exact ⟨rfl, le_refl _, hc, fun q hq1 hq2 => absurd (lt_of_le_of_lt hq1 hq2) (lt_irrefl _)⟩

/-- Specification of `fetchAllPages` on a successful run. -/
theorem fetchAllPages_spec (src : Nat → List α) (pageSize fuel : Nat)
    (items : List α) (reqs : Nat)
    (h : fetchAllPages src pageSize fuel = some (items, reqs)) :
    items = joinPages src reqs ∧
      (joinPages src reqs).length ≠ reqs * pageSize ∧
      ∀ q, q < reqs → (joinPages src q).length = q * pageSize := by
  have h0 : fetchLoop src pageSize fuel (joinPages src 0) 0 = some (items, reqs) := h
  obtain ⟨h1, _, h3, h4⟩ := fetchLoop_spec src pageSize fuel 0 items reqs h0
  exact ⟨h1, h3, fun q hq => h4 q (Nat.zero_le q) hq⟩

/-- A successful pagination run issues at least one request. -/
theorem fetchAllPages_pos (src : Nat → List α) (pageSize fuel : Nat)
    (items : List α) (reqs : Nat)
    (h : fetchAllPages src pageSize fuel = some (items, reqs)) : 1 ≤ reqs := by
  obtain ⟨_, h3, _⟩ := fetchAllPages_spec src pageSize fuel items reqs h
  rcases Nat.eq_zero_or_pos reqs with rfl | hp
  · simp [joinPages_zero] at h3
  · exact hp

/-- Per-page length bookkeeping: the length of the concatenation of the
first `n + 1` pages. -/
theorem joinPages_length_succ (src : Nat → List α) (n : Nat) :
    (joinPages src (n + 1)).length = (joinPages src n).length + (src (n + 1)).length := by
  rw [joinPages_succ]; simp

/-- Every page requested before the terminal one decoded to exactly
`pageSize` elements. -/
theorem fetchAllPages_full_pages (src : Nat → List α) (pageSize fuel : Nat)
    (items : List α) (reqs : Nat)
    (h : fetchAllPages src pageSize fuel = some (items, reqs)) :
    ∀ k, 1 ≤ k → k < reqs → (src k).length = pageSize := by
  intro k h1 h2
  obtain ⟨k', rfl⟩ : ∃ k', k = k' + 1 := ⟨k - 1, by omega⟩
  obtain ⟨_, _, hfull⟩ := fetchAllPages_spec src pageSize fuel items reqs h
  have e1 := hfull (k' + 1) h2
  have e0 := hfull k' (by omega)
  have el := joinPages_length_succ src k'
  rw [e1, e0, Nat.succ_mul] at el
  exact (Nat.add_left_cancel el).symm

/-- The terminal page decoded to strictly fewer than `pageSize` elements,
provided the source never over-fills a page (the platform caps a response
at `per_page` items). -/
theorem fetchAllPages_last_page (src : Nat → List α) (pageSize fuel : Nat)
    (items : List α) (reqs : Nat)
    (hle : ∀ n, (src n).length ≤ pageSize)
    (h : fetchAllPages src pageSize fuel = some (items, reqs)) :
    (src reqs).length < pageSize := by
  obtain ⟨r', rfl⟩ : ∃ r', reqs = r' + 1 := by
    have := fetchAllPages_pos src pageSize fuel items reqs h
    exact ⟨reqs - 1, by omega⟩
  obtain ⟨_, hne, hfull⟩ := fetchAllPages_spec src pageSize fuel items (r' + 1) h
  have e0 := hfull r' (by omega)
  have el := joinPages_length_succ src r'
  rw [e0] at el
  have hne2 : (src (r' + 1)).length ≠ pageSize := by
    intro heq
    rw [heq, ← Nat.succ_mul] at el
    exact hne el
  exact lt_of_le_of_ne (hle (r' + 1)) hne2

/-- C1: for every page source and the fixed page size 100, the pagination
loop of `get_opened_issues_by_repo` / `get_cards` (`fetchAllPages`)
requests pages 1, 2, … in order, accumulates the decoded pages into one
ordered list, and stops exactly after the first page whose decoded length
is strictly below 100 (assuming the source never over-fills a page, as
`per_page=100` guarantees); a source with pages of sizes [100, 100, 37]
yields 237 items in exactly 3 requests, and a first page shorter than 100
yields exactly 1 request. -/
theorem c1_pagination_terminates_on_short_page :
    (∀ (α : Type) (src : Nat → List α) (fuel : Nat) (items : List α) (reqs : Nat),
        (∀ n, (src n).length ≤ PER_PAGE) →
        fetchAllPages src PER_PAGE fuel = some (items, reqs) →
        1 ≤ reqs ∧ items = joinPages src reqs ∧
          (∀ k, 1 ≤ k → k < reqs → (src k).length = PER_PAGE) ∧
          (src reqs).length < PER_PAGE) ∧
    (fetchAllPages pages237 PER_PAGE 10).map (fun r => (r.1.length, r.2)) = some (237, 3) ∧
    (∀ (α : Type) (src : Nat → List α) (fuel : Nat),
        2 ≤ fuel → (src 1).length < PER_PAGE →
        fetchAllPages src PER_PAGE fuel = some (src 1, 1)) := by
  refine ⟨?_, ?_, ?_⟩
  · intro α src fuel items reqs hle h
    exact ⟨fetchAllPages_pos src PER_PAGE fuel items reqs h,
      (fetchAllPages_spec src PER_PAGE fuel items reqs h).1,
      fetchAllPages_full_pages src PER_PAGE fuel items reqs h,
      fetchAllPages_last_page src PER_PAGE fuel items reqs hle h⟩
  · set_option maxRecDepth 4000 in decide
  · intro α src fuel h2 h
    obtain ⟨f, rfl⟩ : ∃ f, fuel = f + 2 := ⟨fuel - 2, by omega⟩
    simp [fetchAllPages, fetchLoop, Nat.ne_of_lt h]

/-- Witness for C1: the general statements applied to the concrete empty
page source, whose first page is empty, and so short. -/
theorem c1_pagination_terminates_on_short_page_witness :
    (1 ≤ 1 ∧ ([] : List Nat) = joinPages (fun _ => ([] : List Nat)) 1 ∧
      (∀ k, 1 ≤ k → k < 1 → ((fun _ => ([] : List Nat)) k).length = PER_PAGE) ∧
      ((fun _ => ([] : List Nat)) 1).length < PER_PAGE) ∧
    fetchAllPages (fun _ => ([] : List Nat)) PER_PAGE 2 = some ([], 1) :=
  ⟨c1_pagination_terminates_on_short_page.1 Nat (fun _ => []) 2 [] 1
      (fun n => by simp) (by decide),
    c1_pagination_terminates_on_short_page.2.2 Nat (fun _ => []) 2 (le_refl 2) (by decide)⟩

/-- C3 counterexample: `Repo::from` does not fail on inputs that are not
exactly two non-empty segments — a three-segment input silently produces
a value from the first two segments, and a slash-free input panics
(out-of-bounds indexing, modelled `none`) rather than failing with
`MalformedReference`. -/
theorem c3_counterexample_extra_segments_accepted :
    Repo.fromString "a/b/c" = some { owner := "a", repo := "b" } ∧
    Repo.fromString "pingcap" = none := by
  constructor <;> decide

/-- C3 amended: `Repo::from` on `"pingcap/parser"` yields
`{owner := "pingcap", repo := "parser"}`; on any input whose split on `/`
has at least two segments it takes the first two segments without any
validation, and on any input with fewer than two segments it panics
(modelled `none`); no `MalformedReference` error exists in the code. -/
theorem c3_repo_parse_amended :
    Repo.fromString "pingcap/parser" = some { owner := "pingcap", repo := "parser" } ∧
    (∀ s a b rest, splitSlash s = a :: b :: rest →
      Repo.fromString s = some { owner := a, repo := b }) ∧
    (∀ s, (splitSlash s).length < 2 → Repo.fromString s = none) := by
  refine ⟨by decide, ?_, ?_⟩
  · intro s a b rest h
    unfold Repo.fromString
    rw [h]
  · intro s h
    unfold Repo.fromString
    cases hs : splitSlash s with
    | nil => rfl
    | cons a t =>
      cases t with
      | nil => rfl
      | cons b t2 =>
        rw [hs] at h
        exact absurd h (by simp)

/-- Witness for C3: the amended parse applied at concrete inputs. -/
theorem c3_repo_parse_amended_witness :
    Repo.fromString "x/y" = some { owner := "x", repo := "y" } ∧
    Repo.fromString "q" = none :=
  ⟨c3_repo_parse_amended.2.1 "x/y" "x" "y" [] (by decide),
    c3_repo_parse_amended.2.2 "q" (by decide)⟩

theorem contains_false_not_mem {α : Type} [DecidableEq α] (l : List α) (a : α)
    (h : l.contains a = false) : a ∉ l := by
  simpa using h

/-- C8: `Project::from` on the URL
`https://github.com/pingcap/tidb/projects/40` yields the reference
`{owner := "pingcap", repo := "tidb", number := 40, id := none}`, and on
any string the fixed pattern does not match it produces the sentinel
empty reference instead of failing. -/
theorem c8_project_parse_sentinel_on_no_match :
    Project.fromString "https://github.com/pingcap/tidb/projects/40" =
      some { owner := "pingcap", repo := "tidb", number := 40, id := none } ∧
    ∀ s, scanProjectUrl s.toList = none →
      Project.fromString s = some { owner := "", repo := "", number := 0, id := none } := by
  refine ⟨by decide, ?_⟩
  intro s h
  unfold Project.fromString
  rw [h]

/-- Witness for C8: the sentinel branch applied at a concrete
non-matching string. -/
theorem c8_project_parse_sentinel_on_no_match_witness :
    Project.fromString "nonsense" =
      some { owner := "", repo := "", number := 0, id := none } :=
  c8_project_parse_sentinel_on_no_match.2 "nonsense" (by decide)

/-- C5: after `GitHub::new`, no retained project shares its
`(owner, repo)` pair with a configured repository; with repos
`["pingcap/parser"]` and the two example project URLs, only the tidb
board number 40 is retained. -/
theorem c5_new_excludes_projects_of_configured_repos :
    (∀ tok rs ps now g, GitHub.new tok rs ps now = some g →
      ∀ p, p ∈ g.projects → ({ owner := p.owner, repo := p.repo } : Repo) ∉ g.repos) ∧
    (GitHub.new "" ["pingcap/parser"]
        ["https://github.com/pingcap/parser/projects/1",
          "https://github.com/pingcap/tidb/projects/40"] 0).map GitHubClient.projects =
      some [{ owner := "pingcap", repo := "tidb", number := 40, id := none }] := by
  refine ⟨?_, by decide⟩
  intro tok rs ps now g h p hp
  unfold GitHub.new at h
  obtain ⟨rs0, hrs, rest⟩ := Option.bind_eq_some.mp h
  obtain ⟨ps0, hps, hg⟩ := Option.bind_eq_some.mp rest
  have hg' := Option.some.inj hg
  subst hg'
  simp only [List.mem_filter] at hp
  have hcont := hp.2
  simp only [Bool.not_eq_true'] at hcont
  exact contains_false_not_mem _ _ hcont

/-- Witness for C5: the filter invariant applied to the concrete example
client. -/
theorem c5_new_excludes_projects_of_configured_repos_witness :
    ({ owner := "pingcap", repo := "tidb" } : Repo) ∉
      [({ owner := "pingcap", repo := "parser" } : Repo)] :=
  c5_new_excludes_projects_of_configured_repos.1 "" ["pingcap/parser"]
    ["https://github.com/pingcap/parser/projects/1",
      "https://github.com/pingcap/tidb/projects/40"] 0
    { token := "token "
      repos := [{ owner := "pingcap", repo := "parser" }]
      projects := [{ owner := "pingcap", repo := "tidb", number := 40, id := none }]
      time := 0 }
    (by decide)
    { owner := "pingcap", repo := "tidb", number := 40, id := none }
    (by decide)

/-- C6: a successful `get_opened_issues_by_repo` returns exactly the
concatenation of all fetched pages in fetch order, with `owner` and
`repo` back-filled from the repository reference on every issue and every
other field unchanged from the decoded payload; no issue is dropped. -/
theorem c6_issue_fetch_backfills_and_drops_nothing :
    ∀ (src : Nat → List Issue) (repo : Repo) (fuel : Nat) (ri : RepoIssues),
      get_opened_issues_by_repo src repo fuel = some ri →
      ri.repo = repo ∧
      (∃ reqs, ri.issues = (joinPages src reqs).map (backfill repo)) ∧
      ∀ i : Issue, (backfill repo i).owner = repo.owner ∧
        (backfill repo i).repo = repo.repo ∧
        (backfill repo i).number = i.number ∧
        (backfill repo i).title = i.title ∧
        (backfill repo i).assignee = i.assignee ∧
        (backfill repo i).pull_request = i.pull_request ∧
        (backfill repo i).created_at = i.created_at ∧
        (backfill repo i).author_association = i.author_association ∧
        (backfill repo i).labels = i.labels := by
  intro src repo fuel ri h
  unfold get_opened_issues_by_repo at h
  cases hf : fetchAllPages src PER_PAGE fuel with
  | none => rw [hf] at h; exact absurd h (by simp)
  | some r =>
    rw [hf] at h
    have h' : ({ repo := repo, issues := r.1.map (backfill repo) } : RepoIssues) = ri := by
      simpa using h
    subst h'
    obtain ⟨h1, _, _⟩ := fetchAllPages_spec src PER_PAGE fuel r.1 r.2 (by rw [hf])
    exact ⟨rfl, ⟨r.2, by rw [h1]⟩, fun i => ⟨rfl, rfl, rfl, rfl, rfl, rfl, rfl, rfl, rfl⟩⟩

/-- Witness for C6: the issue fetch applied to a concrete one-page
source. -/
theorem c6_issue_fetch_backfills_and_drops_nothing_witness :
    ({ repo := { owner := "o", repo := "r" }, issues := [] } : RepoIssues).repo =
        { owner := "o", repo := "r" } ∧
      (∃ reqs, ({ repo := { owner := "o", repo := "r" }, issues := [] } : RepoIssues).issues =
        (joinPages (fun _ => ([] : List Issue)) reqs).map
          (backfill { owner := "o", repo := "r" })) ∧
      ∀ i : Issue,
        (backfill { owner := "o", repo := "r" } i).owner = "o" ∧
        (backfill { owner := "o", repo := "r" } i).repo = "r" ∧
        (backfill { owner := "o", repo := "r" } i).number = i.number ∧
        (backfill { owner := "o", repo := "r" } i).title = i.title ∧
        (backfill { owner := "o", repo := "r" } i).assignee = i.assignee ∧
        (backfill { owner := "o", repo := "r" } i).pull_request = i.pull_request ∧
        (backfill { owner := "o", repo := "r" } i).created_at = i.created_at ∧
        (backfill { owner := "o", repo := "r" } i).author_association = i.author_association ∧
        (backfill { owner := "o", repo := "r" } i).labels = i.labels :=
  c6_issue_fetch_backfills_and_drops_nothing (fun _ => []) { owner := "o", repo := "r" } 2
    { repo := { owner := "o", repo := "r" }, issues := [] } (by decide)

/-- Specification of the board-list scan loop: a run that returns visits
pages `page+1 … k` for some `k`; every page before `k` was full and held
no match, and at `k` either the first matching board is found
(`Except.ok` its id, stopping immediately) or the page is short without a
match (`Except.error`). -/
theorem scanPages_spec (boards : Nat → List GitHubProject) (target : Int) :
    ∀ fuel page r, scanPages boards target fuel page = some r →
      ∃ k, page < k ∧
        (∀ j, page < j → j < k →
          findNumber (boards j) target = none ∧ PER_PAGE ≤ (boards j).length) ∧
        ((∃ i, r = Except.ok i ∧ findNumber (boards k) target = some i) ∨
          (r = Except.error "project not found" ∧
            findNumber (boards k) target = none ∧ (boards k).length < PER_PAGE)) := by
  intro fuel
  induction fuel with
  | zero => intro page r h; exact absurd h (by simp [scanPages])
  | succ fuel ih =>
    intro page r h
    simp only [scanPages] at h
    cases hf : findNumber (boards (page + 1)) target with
    | some i =>
      rw [hf] at h
      simp only [Option.some.injEq] at h
      refine ⟨page + 1, by omega, fun j hj1 hj2 => absurd hj2 (by omega), Or.inl ⟨i, h.symm, hf⟩⟩
    | none =>
      rw [hf] at h
      by_cases hl : (boards (page + 1)).length < PER_PAGE
      · rw [if_pos hl] at h
        simp only [Option.some.injEq] at h
        exact ⟨page + 1, by omega, fun j hj1 hj2 => absurd hj2 (by omega),
          Or.inr ⟨h.symm, hf, hl⟩⟩
      · rw [if_neg hl] at h
        obtain ⟨k, hk1, hk2, hk3⟩ := ih (page + 1) r h
        refine ⟨k, by omega, ?_, hk3⟩
        intro j hj1 hj2
        rcases Nat.eq_or_lt_of_le hj1 with heq | hlt
        · exact heq ▸ ⟨hf, le_of_not_lt hl⟩
        · exact hk2 j hlt hj2

/-- A reference that reaches the assignment phase unresolved and whose
number is absent from the mapping makes the whole pass fail. -/
theorem assignPhase_fails_on_missing (m : List (Int × Int)) :
    ∀ l p, p ∈ l → p.id = none → lookupA m p.number = none →
      assignPhase m l = Except.error "project not found" := by
  intro l
  induction l with
  | nil => intro p hp; exact absurd hp (by simp)
  | cons q rest ih =>
    intro p hp hid hlook
    rcases List.mem_cons.mp hp with rfl | hmem
    · unfold assignPhase
      rw [hid, hlook]
    · unfold assignPhase
      cases hq : q.id with
      | some i => rw [ih p hmem hid hlook]; rfl
      | none =>
        cases hql : lookupA m q.number with
        | some i => rw [ih p hmem hid hlook]; rfl
        | none => rfl

/-- C2: the resolution scan of `get_projects_id` paginates a
repository's board list and stops immediately at the first page holding
a matching board number, recording `(number -> id)`, or fails with
`"project not found"` at the first short page without a match; and any
reference that reaches the assignment phase unresolved with its number
missing from the mapping makes the whole operation fail with
`"project not found"`. -/
theorem c2_project_resolution :
    (∀ (boards : Nat → List GitHubProject) (target : Int) (fuel : Nat) r,
      scanPages boards target fuel 0 = some r →
      ∃ k, 1 ≤ k ∧
        (∀ j, 1 ≤ j → j < k →
          findNumber (boards j) target = none ∧ PER_PAGE ≤ (boards j).length) ∧
        ((∃ i, r = Except.ok i ∧ findNumber (boards k) target = some i) ∨
          (r = Except.error "project not found" ∧
            findNumber (boards k) target = none ∧ (boards k).length < PER_PAGE))) ∧
    (∀ (env : String → String → Nat → List GitHubProject) (fuel : Nat)
        (p : Project) (rest : List Project) (m : List (Int × Int)) (cnt : Nat) (i : Int),
      p.id = none → scanPages (env p.owner p.repo) p.number fuel 0 = some (Except.ok i) →
      scanPhase env fuel (p :: rest) m cnt = scanPhase env fuel rest ((p.number, i) :: m) (cnt + 1)) ∧
    (∀ (m : List (Int × Int)) (l : List Project) (p : Project),
      p ∈ l → p.id = none → lookupA m p.number = none →
      assignPhase m l = Except.error "project not found") := by
  refine ⟨?_, ?_, ?_⟩
  · intro boards target fuel r h
    obtain ⟨k, hk1, hk2, hk3⟩ := scanPages_spec boards target fuel 0 r h
    exact ⟨k, hk1, fun j hj1 hj2 => hk2 j hj1 hj2, hk3⟩
  · intro env fuel p rest m cnt i hid hscan
    simp only [scanPhase, hid, hscan]
  · exact fun m l p hp hid hlook => assignPhase_fails_on_missing m l p hp hid hlook

/-- Witness for C2: a concrete one-page success scan and a concrete
assignment-phase failure. -/
theorem c2_project_resolution_witness :
    (∃ k, 1 ≤ k ∧
      (∀ j, 1 ≤ j → j < k →
        findNumber (boards9 j) 7 = none ∧ PER_PAGE ≤ (boards9 j).length) ∧
      ((∃ i, (Except.ok 9 : Except String Int) = Except.ok i ∧
          findNumber (boards9 k) 7 = some i) ∨
        ((Except.ok 9 : Except String Int) = Except.error "project not found" ∧
          findNumber (boards9 k) 7 = none ∧ (boards9 k).length < PER_PAGE))) ∧
    assignPhase [] [{ owner := "o", repo := "r", number := 5, id := none }] =
      Except.error "project not found" :=
  ⟨c2_project_resolution.1 boards9 7 3 (Except.ok 9) rfl,
    c2_project_resolution.2.2 [] [{ owner := "o", repo := "r", number := 5, id := none }]
      { owner := "o", repo := "r", number := 5, id := none } (by decide) rfl rfl⟩

/-- On a successful scan phase, the number of pagination scans issued is
exactly the number of projects whose `id` is unset — the `number2id` map
is never consulted before scanning, so duplicates are scanned again. -/
theorem scanPhase_count (env : String → String → Nat → List GitHubProject) (fuel : Nat) :
    ∀ (l : List Project) (m : List (Int × Int)) (cnt : Nat)
      (m' : List (Int × Int)) (cnt' : Nat),
      scanPhase env fuel l m cnt = some (Except.ok m', cnt') →
      cnt' = cnt + l.countP (fun p => p.id.isNone) := by
  intro l
  induction l with
  | nil =>
    intro m cnt m' cnt' h
    have := Option.some.inj h
    have hc : cnt = cnt' := congrArg Prod.snd this
    simp [← hc]
  | cons q rest ih =>
    intro m cnt m' cnt' h
    simp only [scanPhase] at h
    cases hq : q.id with
    | some v =>
      rw [hq] at h
      have := ih m cnt m' cnt' h
      simp [List.countP_cons, hq, this]
    | none =>
      rw [hq] at h
      cases hs : scanPages (env q.owner q.repo) q.number fuel 0 with
      | none => rw [hs] at h; exact absurd h (by simp)
      | some r =>
        rw [hs] at h
        cases r with
        | error e =>
          exfalso
          have := Option.some.inj h
          have hfst : Except.error e = Except.ok m' := congrArg Prod.fst this
          exact absurd hfst (by simp)
        | ok i =>
          have := ih ((q.number, i) :: m) (cnt + 1) m' cnt' h
          simp [List.countP_cons, hq, this]
          omega

/-- C4 counterexample: with two identical unresolved references to board
number 7 of `o/r` and a board list answering on page 1, `get_projects_id`
performs two pagination scans, not one — the `number2id` cache is only
consulted in the assignment pass, never before scanning. -/
theorem c4_counterexample_duplicate_refs_scan_twice :
    get_projects_id envDup [projDup, projDup] 3 =
      some (Except.ok
        [{ owner := "o", repo := "r", number := 7, id := some 9 },
          { owner := "o", repo := "r", number := 7, id := some 9 }], 2) ∧
    (2 : Nat) ≠ 1 := by
  exact ⟨rfl, by decide⟩

/-- C4 amended: both duplicate references are resolved to the same id via
the shared `number2id` mapping, but the scan phase performs one
board-list pagination scan per reference whose `id` is unset —
duplicates included — so two identical unresolved references cause two
scans, not one. -/
theorem c4_duplicate_refs_one_scan_each :
    (∀ (env : String → String → Nat → List GitHubProject) (fuel : Nat)
        (l : List Project) (m' : List (Int × Int)) (cnt' : Nat),
      scanPhase env fuel l [] 0 = some (Except.ok m', cnt') →
      cnt' = l.countP (fun p => p.id.isNone)) ∧
    get_projects_id envDup [projDup, projDup] 3 =
      some (Except.ok
        [{ owner := "o", repo := "r", number := 7, id := some 9 },
          { owner := "o", repo := "r", number := 7, id := some 9 }], 2) := by
  refine ⟨?_, rfl⟩
  intro env fuel l m' cnt' h
  have := scanPhase_count env fuel l [] 0 m' cnt' h
  simpa using this

/-- Witness for C4: the scan count applied to the concrete
single-reference run. -/
theorem c4_duplicate_refs_one_scan_each_witness :
    (1 : Nat) = [projDup].countP (fun p => p.id.isNone) :=
  c4_duplicate_refs_one_scan_each.1 envDup 3 [projDup] [(7, 9)] 1 rfl

/-- On a successful assignment phase, the output has the input's length,
already-resolved references are returned unchanged, and every
still-unresolved reference receives exactly `lookupA m` of its number. -/
theorem assignPhase_sets_from_map (m : List (Int × Int)) :
    ∀ (l res : List Project), assignPhase m l = Except.ok res →
      res.length = l.length ∧
      ∀ i (h1 : i < l.length) (h2 : i < res.length),
        (l.get ⟨i, h1⟩).id = none →
        (res.get ⟨i, h2⟩).id = lookupA m (l.get ⟨i, h1⟩).number := by
  intro l
  induction l with
  | nil =>
    intro res h
    have : ([] : List Project) = res := Except.ok.inj h
    subst this
    exact ⟨rfl, fun i h1 => absurd h1 (by simp)⟩
  | cons q rest ih =>
    intro res h
    simp only [assignPhase] at h
    cases hq : q.id with
    | some v =>
      rw [hq] at h
      cases hr : assignPhase m rest with
      | error e => rw [hr] at h; exact absurd h (by simp [Except.map])
      | ok res' =>
        rw [hr] at h
        have hres : q :: res' = res := Except.ok.inj h
        subst hres
        obtain ⟨hlen, hget⟩ := ih res' hr
        refine ⟨by simp [hlen], ?_⟩
        intro i h1 h2 hid
        cases i with
        | zero => exact absurd hid (by simp [hq])
        | succ n => exact hget n (by simpa using h1) (by simpa using h2) (by simpa using hid)
    | none =>
      rw [hq] at h
      cases hl : lookupA m q.number with
      | none => rw [hl] at h; exact absurd h (by simp)
      | some v =>
        rw [hl] at h
        cases hr : assignPhase m rest with
        | error e => rw [hr] at h; exact absurd h (by simp [Except.map])
        | ok res' =>
          rw [hr] at h
          have hres : { q with id := some v } :: res' = res := Except.ok.inj h
          subst hres
          obtain ⟨hlen, hget⟩ := ih res' hr
          refine ⟨by simp [hlen], ?_⟩
          intro i h1 h2 hid
          cases i with
          | zero => simpa using hl.symm
          | succ n => exact hget n (by simpa using h1) (by simpa using h2) (by simpa using hid)

/-- C10: on a successful `get_projects_id`, any two initially-unresolved
references sharing a board number receive the same id, whatever their
`(owner, repo)` pairs, because `number2id` is keyed by number alone; in
the concrete two-repository run the id recorded by the last scanned
repository (`80`) is assigned to both. -/
theorem c10_shared_number_gets_shared_id :
    (∀ (env : String → String → Nat → List GitHubProject) (projects : List Project)
        (fuel : Nat) (res : List Project) (cnt : Nat),
      get_projects_id env projects fuel = some (Except.ok res, cnt) →
      ∀ i j (hi : i < projects.length) (hj : j < projects.length)
        (hi2 : i < res.length) (hj2 : j < res.length),
        (projects.get ⟨i, hi⟩).id = none → (projects.get ⟨j, hj⟩).id = none →
        (projects.get ⟨i, hi⟩).number = (projects.get ⟨j, hj⟩).number →
        (res.get ⟨i, hi2⟩).id = (res.get ⟨j, hj2⟩).id) ∧
    get_projects_id envLast [projA, projB] 4 =
      some (Except.ok
        [{ owner := "o1", repo := "r1", number := 5, id := some 80 },
          { owner := "o2", repo := "r2", number := 5, id := some 80 }], 2) := by
  refine ⟨?_, rfl⟩
  intro env projects fuel res cnt h i j hi hj hi2 hj2 hidi hidj hnum
  unfold get_projects_id at h
  cases hs : scanPhase env fuel projects [] 0 with
  | none => rw [hs] at h; exact absurd h (by simp)
  | some rc =>
    rw [hs] at h
    obtain ⟨r0, cnt0⟩ := rc
    cases r0 with
    | error e =>
      exfalso
      have := Option.some.inj h
      exact absurd (congrArg Prod.fst this) (by simp)
    | ok m =>
      have := Option.some.inj h
      have ha : assignPhase m projects = Except.ok res := congrArg Prod.fst this
      obtain ⟨_, hget⟩ := assignPhase_sets_from_map m projects res ha
      rw [hget i hi hi2 hidi, hget j hj hj2 hidj, hnum]

/-- Witness for C10: the shared-id property applied to the concrete
two-repository run. -/
theorem c10_shared_number_gets_shared_id_witness :
    (([{ owner := "o1", repo := "r1", number := 5, id := some 80 },
        { owner := "o2", repo := "r2", number := 5, id := some 80 }] : List Project).get
      ⟨0, by decide⟩).id =
    (([{ owner := "o1", repo := "r1", number := 5, id := some 80 },
        { owner := "o2", repo := "r2", number := 5, id := some 80 }] : List Project).get
      ⟨1, by decide⟩).id :=
  c10_shared_number_gets_shared_id.1 envLast [projA, projB] 4
    [{ owner := "o1", repo := "r1", number := 5, id := some 80 },
      { owner := "o2", repo := "r2", number := 5, id := some 80 }] 2 rfl
    0 1 (by decide) (by decide) (by decide) (by decide) rfl rfl rfl

/-- C9: `get_columns` on a project whose `id` is unset fails with
`"project id is none"` issuing zero requests; on a project whose `id` is
set, every successful run issues the column-list request (at least one
request) and returns the column list, never that error. -/
theorem c9_columns_require_resolved_id :
    ∀ (env : Env) (p : Project) (fuel : Nat),
      (p.id = none → get_columns env p fuel = some (Except.error "project id is none", 0)) ∧
      (∀ pid, p.id = some pid → ∀ r cnt, get_columns env p fuel = some (r, cnt) →
        1 ≤ cnt ∧ ∃ cols, r = Except.ok cols) := by
  intro env p fuel
  constructor
  · intro h
    unfold get_columns
    rw [h]
  · intro pid h r cnt hc
    simp only [get_columns, h] at hc
    cases ha : attachCards env fuel (env.columns pid) with
    | none => rw [ha] at hc; exact absurd hc (by simp)
    | some pr =>
      rw [ha] at hc
      have := Option.some.inj hc
      have hr : Except.ok pr.1 = r := congrArg Prod.fst this
      have hcnt : 1 + pr.2 = cnt := congrArg Prod.snd this
      exact ⟨by omega, pr.1, hr.symm⟩

/-- Witness for C9: both branches at concrete projects over the empty
platform. -/
theorem c9_columns_require_resolved_id_witness :
    get_columns envEmpty projDup 2 = some (Except.error "project id is none", 0) ∧
    (1 ≤ 1 ∧ ∃ cols, (Except.ok [] : Except String (List Column)) = Except.ok cols) :=
  ⟨(c9_columns_require_resolved_id envEmpty projDup 2).1 rfl,
    (c9_columns_require_resolved_id envEmpty
        { owner := "", repo := "", number := 0, id := some 3 } 2).2 3 rfl
      (Except.ok []) 1 rfl⟩

/-- C7 counterexample: the snapshot's `time` is the instant recorded at
client construction (`GitHub::new`, here 5), not the instant at which
`get_snapshot` is invoked (here 10) — `get_snapshot` never reads the
clock. -/
theorem c7_counterexample_time_is_construction_time :
    (GitHub.new "tk" [] [] 5).map (fun g => get_snapshot g envEmpty 1 10) =
      some (some (Except.ok { time := 5, repo_issues := [], project_issues := [] })) ∧
    (5 : Int) ≠ 10 :=
  ⟨rfl, by decide⟩

/-- C7 amended: two `get_snapshot` invocations on the same client over an
unchanged platform yield equal snapshots including the `time` field,
because the snapshot's `time` is the client's `time` stamped once at
construction in `GitHub::new`, not at invocation start. -/
theorem c7_snapshot_idempotent_time_from_construction :
    (∀ (g : GitHubClient) (env : Env) (fuel : Nat) (t1 t2 : Int),
      get_snapshot g env fuel t1 = get_snapshot g env fuel t2) ∧
    (∀ (g : GitHubClient) (env : Env) (fuel : Nat) (t : Int) (s : Snapshot),
      get_snapshot g env fuel t = some (Except.ok s) → s.time = g.time) ∧
    (∀ tok rs ps now g, GitHub.new tok rs ps now = some g → g.time = now) := by
  refine ⟨fun g env fuel t1 t2 => rfl, ?_, ?_⟩
  · intro g env fuel t s h
    unfold get_snapshot at h
    cases hi : get_opened_issues env g.repos fuel with
    | none => rw [hi] at h; exact absurd h (by simp)
    | some ris =>
      rw [hi] at h
      cases hp : get_projects_snapshot env fuel g.projects with
      | none => rw [hp] at h; exact absurd h (by simp)
      | some rp =>
        rw [hp] at h
        cases rp with
        | error e => exact absurd (Option.some.inj h) (by simp)
        | ok pis =>
          have := Except.ok.inj (Option.some.inj h)
          rw [← this]
  · intro tok rs ps now g h
    unfold GitHub.new at h
    obtain ⟨rs0, hrs, rest⟩ := Option.bind_eq_some.mp h
    obtain ⟨ps0, hps, hg⟩ := Option.bind_eq_some.mp rest
    have := Option.some.inj hg
    rw [← this]

/-- Witness for C7: the amended statements at a concrete client. -/
theorem c7_snapshot_idempotent_time_from_construction_witness :
    get_snapshot { token := "token tk", repos := [], projects := [], time := 5 } envEmpty 1 10 =
      get_snapshot { token := "token tk", repos := [], projects := [], time := 5 } envEmpty 1 11 ∧
    ({ time := 5, repo_issues := [], project_issues := [] } : Snapshot).time =
      ({ token := "token tk", repos := [], projects := [], time := 5 } : GitHubClient).time ∧
    ({ token := "token tk", repos := [], projects := [], time := 5 } : GitHubClient).time = 5 :=
  ⟨c7_snapshot_idempotent_time_from_construction.1
      { token := "token tk", repos := [], projects := [], time := 5 } envEmpty 1 10 11,
    c7_snapshot_idempotent_time_from_construction.2.1
      { token := "token tk", repos := [], projects := [], time := 5 } envEmpty 1 10
      { time := 5, repo_issues := [], project_issues := [] } rfl,
    c7_snapshot_idempotent_time_from_construction.2.2 "tk" [] [] 5
      { token := "token tk", repos := [], projects := [], time := 5 } rfl⟩

end IssuesWatcher
